import Mathlib

/-!
Verification of the EFNMR acquisition pipeline (`src/NMR.py`).

The Python source is shallowly embedded: each side-effecting phase of the
serial worker becomes a pure function over an explicit trace of transport
read results, the matplotlib update callback becomes a pure state
transformer, and the thread-safe queue becomes a list with push/drain
operations.  Machine integers are modelled as `Nat` (samples are 12-bit
values, frames 16-bit); the float `samples_to_read = SAMPLE_RATE *
(read_ms / 1000.0)` is modelled as the exact rational, which agrees with
the IEEE-754 double computation on the inputs considered here.
-/

namespace NMR

/-- Configuration constant from the source: `SAMPLE_RATE = 10000`. -/
def SAMPLE_RATE : ℕ := 10000

/-- Decoding of one 16-bit little-endian wire value: `sample & 0x0FFF`
(line 51 of `NMR.py`, "Mask out the sync bit"). -/
def decode (raw : ℕ) : ℕ := raw &&& 0x0FFF

/-- Little-endian reassembly of `struct.unpack('<H', raw_bytes)` followed by
the 12-bit mask; `r` is the byte list returned by `ser.read(2)`. -/
def decodeFrame (r : List ℕ) : ℕ := decode (r.getD 0 0 + 256 * r.getD 1 0)

/-- Python's `str.strip()` on a character list: drop whitespace from both
ends. -/
def stripChars (cs : List Char) : List Char :=
  ((cs.dropWhile Char.isWhitespace).reverse.dropWhile Char.isWhitespace).reverse

/-- Python's `str.strip()`. -/
def pyStrip (s : String) : String := ⟨stripChars s.data⟩

/-- Does `pat` occur at the head of `cs`? -/
def headMatch : List Char → List Char → Bool
  | [], _ => true
  | _ :: _, [] => false
  | a :: as, b :: bs => a == b && headMatch as bs

/-- Substring occurrence on character lists. -/
def subOccur : List Char → List Char → Bool
  | pat, [] => pat.isEmpty
  | pat, c :: cs => headMatch pat (c :: cs) || subOccur pat cs

/-- Python's `needle in haystack` test on strings (substring containment). -/
def pyIn (needle haystack : String) : Bool := subOccur needle.data haystack.data

/-! ## Spectral engine (`update_plot`, lines 79-91)

`np.fft.fftfreq(N, 1/SAMPLE_RATE)` yields `k * SAMPLE_RATE / N` for
`k < (N+1)/2` and `(k - N) * SAMPLE_RATE / N` for the remaining indices.
The code keeps the indices whose frequency is `>= 0` and plots the
frequency array and the magnitude array at those indices. -/

/-- The signed numerator of `np.fft.fftfreq N` at index `k`: `k` for the
first `ceil(N/2)` indices, `k - N` afterwards. -/
def fftfreqNum (N k : ℕ) : ℤ := if k < (N + 1) / 2 then (k : ℤ) else (k : ℤ) - N

/-- Value of `np.fft.fftfreq(N, 1.0 / SAMPLE_RATE)` at index `k`, as an
exact rational. -/
def fftfreqVal (N k : ℕ) : ℚ := (fftfreqNum N k : ℚ) * (SAMPLE_RATE : ℚ) / (N : ℚ)

/-- `np.where(fft_freq >= 0)`: the indices of the non-negative
frequencies, in index order. -/
def posFreqIdx (N : ℕ) : List ℕ :=
  (List.range N).filter (fun k => decide (0 ≤ fftfreqVal N k))

/-- The frequency axis handed to `line_fft.set_xdata`:
`fft_freq[positive_freq_indices]`. -/
def specFreqs (N : ℕ) : List ℚ := (posFreqIdx N).map (fftfreqVal N)

/-- The `k`-th coefficient of the discrete Fourier transform of the sample
list `x` (`np.fft.fft(all_samples)`). -/
noncomputable def dft (x : List ℕ) (k : ℕ) : ℂ :=
  ∑ j ∈ Finset.range x.length,
    ((x.getD j 0 : ℕ) : ℂ) *
      Complex.exp (-2 * (Real.pi : ℂ) * Complex.I * (j : ℂ) * (k : ℂ) / (x.length : ℂ))

/-- `fft_magnitude = np.abs(fft_result)`: magnitudes of all `N`
coefficients, in index order. -/
noncomputable def fft_magnitude (x : List ℕ) : List ℝ :=
  (List.range x.length).map (fun k => Complex.abs (dft x k))

/-- The magnitude axis handed to `line_fft.set_ydata`:
`fft_magnitude[positive_freq_indices]`. -/
noncomputable def specMags (x : List ℕ) : List ℝ :=
  (posFreqIdx x.length).map (fun k => (fft_magnitude x).getD k 0)

/-- One frequency-domain frame: the two parallel arrays pushed to the
display sink. -/
structure SpectralFrame where
  freqs : List ℚ
  mags : List ℝ

/-- The spectral engine's output for the accumulated samples `x`:
the guard `if len(all_samples) > 1` skips the transform entirely for
`N ≤ 1` (no frame is produced), otherwise the non-negative-frequency half
of the transform is produced. -/
noncomputable def spectralFrame? (x : List ℕ) : Option SpectralFrame :=
  if 1 < x.length then some ⟨specFreqs x.length, specMags x⟩ else none

/-! ## Protocol reader (`serial_worker`)

The transport is replaced by a trace of read results: the handshake line,
the list of `readline()` results during the status phase (an empty string
standing for a timed-out read, exactly what `pyserial` returns then), and
the list of `ser.read(2)` results during streaming (a short list standing
for a timed-out / partial read).  `stop_event` is modelled as a predicate
on the loop iteration counter for each polling loop. -/

/-- How the status-reading loop (lines 37-42) ends, relative to the finite
trace of reads supplied: the "Starting data read" marker was seen, the
stop event was observed set, or the trace ran out with the loop still
running (the real loop would keep issuing reads). -/
inductive StatusEnd where
  | started
  | cancelled
  | exhausted
deriving DecidableEq

/-- The status phase: read a line, skip it if (after stripping) it is
empty, surface it otherwise, and leave the loop when it contains the
start-of-data marker; the stop event is polled at the top of each
iteration.  Returns the surfaced lines and how the loop ended. -/
def statusPhase (cancel : ℕ → Bool) : List String → ℕ → List String × StatusEnd
  | [], i => if cancel i then ([], .cancelled) else ([], .exhausted)
  | l :: ls, i =>
    if cancel i then ([], .cancelled)
    else
      let s := pyStrip l
      if s = "" then statusPhase cancel ls (i + 1)
      else if pyIn "Starting data read" s then ([s], .started)
      else
        let r := statusPhase cancel ls (i + 1)
        (s :: r.1, r.2)

/-- `samples_to_read = SAMPLE_RATE * (read_ms / 1000.0)` as an exact
rational. -/
def samples_to_read (read_ms : ℕ) : ℚ := (SAMPLE_RATE : ℚ) * ((read_ms : ℚ) / 1000)

/-- The streaming loop (lines 47-55): while the stop event is unset and
fewer than `expected` samples have been read, take the next `ser.read(2)`
result; a full 2-byte frame is decoded and pushed, a short read breaks
the loop.  Returns the pushed samples in push order; `n` is
`samples_read`. -/
def streamPhase (cancel : ℕ → Bool) (expected : ℚ) : List (List ℕ) → ℕ → List ℕ
  | [], _ => []
  | r :: rs, n =>
    if cancel n then []
    else if (n : ℚ) < expected then
      if r.length = 2 then decodeFrame r :: streamPhase cancel expected rs (n + 1)
      else []
    else []

/-- The transport-side inputs of one run of `serial_worker`. -/
structure DeviceTrace where
  /-- A `serial.SerialException` is raised (open failure or any other
  transport fault inside the `with` block). -/
  openFails : Bool
  /-- The first `readline()` result (the ready message). -/
  handshakeLine : String
  /-- Subsequent `readline()` results during the status phase. -/
  statusLines : List String
  /-- Subsequent `ser.read(2)` results during streaming. -/
  dataReads : List (List ℕ)

/-- The externally driven `stop_event`, sampled at each poll of each
loop. -/
structure CancelSchedule where
  statusCancel : ℕ → Bool
  streamCancel : ℕ → Bool

/-- No external cancellation. -/
def noCancel : CancelSchedule := ⟨fun _ => false, fun _ => false⟩

/-- Observable outcome of one `serial_worker` run. -/
structure WorkerResult where
  /-- The `NMR(pulse,read)` command, if it was written to the transport. -/
  commandSent : Option String
  /-- Status lines printed (surfaced) during the status phase. -/
  surfaced : List String
  /-- Samples pushed to `data_queue`, in push order. -/
  queued : List ℕ
  /-- Did the worker function return within the supplied trace?  (The
  status loop can keep looping past the end of the trace.) -/
  exited : Bool
  /-- Is `stop_event` set when the trace ends?  The `finally:` block sets
  it on every return path. -/
  stopSet : Bool

/-- The command string `f"NMR({pulse_ms},{read_ms})\n"`. -/
def commandText (pulse_ms read_ms : ℕ) : String :=
  "NMR(" ++ toString pulse_ms ++ "," ++ toString read_ms ++ ")\n"

/-- Shallow embedding of `serial_worker(pulse_ms, read_ms, stop_event)`
run against the device trace `t` and stop-event schedule `c`.  The
`finally: stop_event.set()` is the `stopSet := true` on every path where
the function returns. -/
def serial_worker (pulse_ms read_ms : ℕ) (t : DeviceTrace) (c : CancelSchedule) :
    WorkerResult :=
  if t.openFails then
    { commandSent := none, surfaced := [], queued := [], exited := true, stopSet := true }
  else if pyIn "" (pyStrip t.handshakeLine) = false then
    -- `if "" not in initial_message: return` (lines 27-29)
    { commandSent := none, surfaced := [], queued := [], exited := true, stopSet := true }
  else
    let cmd := commandText pulse_ms read_ms
    let st := statusPhase c.statusCancel t.statusLines 0
    match st.2 with
    | .exhausted =>
      -- the status loop is still running when the trace ends: the worker
      -- has not returned, so the `finally:` block has not run yet
      { commandSent := some cmd, surfaced := st.1, queued := [], exited := false,
        stopSet := false }
    | .cancelled =>
      -- the `while not stop_event.is_set()` guard fails; the streaming
      -- loop's guard then fails immediately as well and the worker returns
      { commandSent := some cmd, surfaced := st.1, queued := [], exited := true,
        stopSet := true }
    | .started =>
      { commandSent := some cmd, surfaced := st.1,
        queued := streamPhase c.streamCancel (samples_to_read read_ms) t.dataReads 0,
        exited := true, stopSet := true }

/-! ## Refresh driver (`update_plot`, lines 63-100)

The mutable plot objects become an explicit state record; series handed to
`set_xdata`/`set_ydata` are the record's lists, and the two
`relim()/autoscale_view()` calls become booleans reporting whether the
axis was rescaled during the step. -/

/-- The state the callback mutates: the accumulator and the four series
held by the two plot lines. -/
structure PlotState where
  allSamples : List ℕ
  timeX : List ℕ
  timeY : List ℕ
  fftX : List ℚ
  fftY : List ℝ

/-- State after one callback invocation, plus which axes were rescaled
during it. -/
structure UpdateResult where
  state : PlotState
  timeRescaled : Bool
  fftRescaled : Bool

/-- One invocation of `update_plot`: `queued` is the batch drained from
`data_queue`.  An empty batch returns immediately; otherwise the
accumulator is extended and the time series updated, the spectral series
is recomputed only when more than one sample has accumulated, and the
time axis is rescaled at the end of the non-empty path. -/
noncomputable def update_plot (queued : List ℕ) (s : PlotState) : UpdateResult :=
  if queued.isEmpty then ⟨s, false, false⟩
  else
    let samples := s.allSamples ++ queued
    let s1 : PlotState :=
      { allSamples := samples, timeX := List.range samples.length, timeY := samples,
        fftX := s.fftX, fftY := s.fftY }
    if 1 < samples.length then
      ⟨{ s1 with fftX := specFreqs samples.length, fftY := specMags samples }, true, true⟩
    else
      ⟨s1, true, false⟩

/-! ## Sample queue (`queue.Queue`)

`data_queue.put` appends; the drain loop at the top of `update_plot`
(lines 65-67) removes everything currently queued, in FIFO order. -/

/-- One operation on the queue: a producer push or a consumer drain. -/
inductive QOp where
  | push (v : ℕ)
  | drain
deriving DecidableEq

/-- Run a sequence of queue operations from queue contents `q`; returns
the final queue contents and the output of each drain, in order. -/
def runOps : List QOp → List ℕ → List ℕ × List (List ℕ)
  | [], q => (q, [])
  | .push v :: ops, q => runOps ops (q ++ [v])
  | .drain :: ops, q =>
    let r := runOps ops []
    (r.1, q :: r.2)

/-- The values pushed by a sequence of operations, in order. -/
def pushedOf (ops : List QOp) : List ℕ :=
  ops.filterMap (fun op => match op with | .push v => some v | .drain => none)

/-! ## Command-line surface (`main`, lines 102-106)

`main` exits with usage iff `len(sys.argv) != 3`; otherwise
`map(int, sys.argv[1:])` parses both arguments, raising an uncaught
`ValueError` (non-zero exit, traceback, no usage line) on a non-integer,
and any parsed pair — positive or not — reaches the plot setup and the
worker thread, which opens the transport. -/

/-- Python's `int(s)` on a decimal string: strip whitespace, optional
sign, at least one digit.  (Underscore digit grouping is not modelled;
none of the claims involve it.) -/
def digitsVal : List Char → Option ℕ
  | [] => none
  | cs =>
    if cs.all Char.isDigit then
      some (cs.foldl (fun a c => 10 * a + (c.toNat - 48)) 0)
    else none

/-- Python `int(s)` (decimal), `none` meaning `ValueError`. -/
def pyInt (s : String) : Option ℤ :=
  match stripChars s.data with
  | '-' :: rest => (digitsVal rest).map (fun n => -(n : ℤ))
  | '+' :: rest => (digitsVal rest).map (fun n => (n : ℤ))
  | cs => (digitsVal cs).map (fun n => (n : ℤ))

/-- How far `main` gets with a given `sys.argv` before touching the
transport. -/
inductive ArgOutcome where
  /-- Usage message printed, `sys.exit(1)`. -/
  | usageExit
  /-- Uncaught `ValueError` from `int(...)`: non-zero exit, no usage
  message. -/
  | valueError
  /-- Both arguments parsed; the run proceeds and the worker thread opens
  the transport. -/
  | run (pulse_ms read_ms : ℤ)
deriving DecidableEq

/-- Argument handling of `main` (lines 103-106). -/
def mainArgs (argv : List String) : ArgOutcome :=
  if argv.length ≠ 3 then .usageExit
  else
    match pyInt (argv.getD 1 ""), pyInt (argv.getD 2 "") with
    | some p, some r => .run p r
    | _, _ => .valueError

/-- Does the given outcome reach the point where the serial port is
opened? -/
def transportOpened : ArgOutcome → Bool
  | .run _ _ => true
  | _ => false

/-! ## Helper lemmas -/

/-- The empty pattern occurs in every string: Python's `"" in s` is always
`True`. -/
theorem pyIn_nil (s : String) : pyIn "" s = true := by
  unfold pyIn
  cases s.data with
  | nil => rfl
  | cons c cs => simp [subOccur, headMatch]

/-- Filtering `range N` by `k < m` yields `range m` when `m ≤ N`. -/
theorem filter_range_lt (m : ℕ) :
    ∀ N, m ≤ N → (List.range N).filter (fun k => decide (k < m)) = List.range m := by
  intro N
  induction N with
  | zero =>
    intro h
    simp [Nat.le_zero.mp h]
  | succ n ih =>
    intro h
    rcases Nat.lt_or_ge n m with h1 | h2
    · have hm : m = n + 1 := Nat.le_antisymm h h1
      subst hm
      rw [List.range_succ, List.filter_append]
      have : (List.range n).filter (fun k => decide (k < n + 1)) = List.range n := by
        refine List.filter_eq_self.mpr ?_
        intro a ha
        simp only [List.mem_range] at ha
        simp [Nat.lt_succ_of_lt ha]
      simp [this, List.range_succ]
    · rw [List.range_succ, List.filter_append, ih h2]
      simp [Nat.not_lt.mpr h2]

/-- With a positive length, the frequency at index `k` is non-negative
exactly when `k` is among the first `ceil(N/2)` indices — the negative
indices include the Nyquist index when `N` is even. -/
theorem fftfreqVal_nonneg_iff {N k : ℕ} (hk : k < N) :
    0 ≤ fftfreqVal N k ↔ k < (N + 1) / 2 := by
  rw [fftfreqVal, mul_div_assoc]
  have hpos : (0 : ℚ) < (SAMPLE_RATE : ℚ) / (N : ℚ) := by
    apply div_pos
    · norm_num [SAMPLE_RATE]
    · exact_mod_cast Nat.pos_of_ne_zero (by omega)
  rw [mul_nonneg_iff_of_pos_right hpos]
  rw [show ((0 : ℚ) ≤ (fftfreqNum N k : ℚ)) ↔ 0 ≤ fftfreqNum N k by exact_mod_cast Iff.rfl]
  unfold fftfreqNum
  constructor
  · intro h
    by_contra hc
    rw [if_neg hc] at h
    omega
  · intro h
    rw [if_pos h]
    omega

/-- The kept indices are exactly the first `ceil(N/2)` = `(N+1)/2`
indices. -/
theorem posFreqIdx_eq_range (N : ℕ) : posFreqIdx N = List.range ((N + 1) / 2) := by
  unfold posFreqIdx
  have hcongr : (List.range N).filter (fun k => decide (0 ≤ fftfreqVal N k)) =
      (List.range N).filter (fun k => decide (k < (N + 1) / 2)) := by
    apply List.filter_congr
    intro k hk
    simp only [List.mem_range] at hk
    simp [fftfreqVal_nonneg_iff hk]
  rw [hcongr, filter_range_lt _ N (by omega)]

/-- The plotted frequency axis is the map of `k * SAMPLE_RATE / N` over
the first `(N+1)/2` indices. -/
theorem specFreqs_eq (N : ℕ) :
    specFreqs N =
      (List.range ((N + 1) / 2)).map
        (fun k : ℕ => (k : ℚ) * (SAMPLE_RATE : ℚ) / (N : ℚ)) := by
  unfold specFreqs
  rw [posFreqIdx_eq_range]
  apply List.map_congr_left
  intro k hk
  simp only [List.mem_range] at hk
  unfold fftfreqVal fftfreqNum
  rw [if_pos hk]
  push_cast
  ring

/-- Running the streaming loop over a block of full 2-byte frames that
fits under the remaining budget decodes and pushes every frame, then
continues on the rest of the trace with the counter advanced. -/
theorem streamPhase_full_block (e : ℚ) (c : ℕ → Bool) (hc : ∀ i, c i = false) :
    ∀ (frames rest : List (List ℕ)) (n : ℕ),
      (∀ f ∈ frames, f.length = 2) → ((n + frames.length : ℕ) : ℚ) ≤ e →
      streamPhase c e (frames ++ rest) n =
        frames.map decodeFrame ++ streamPhase c e rest (n + frames.length) := by
  intro frames
  induction frames with
  | nil =>
    intro rest n _ _
    simp
  | cons f fs ih =>
    intro rest n hf hle
    have hlt : (n : ℚ) < e := by
      refine lt_of_lt_of_le ?_ hle
      push_cast
      simp only [List.length_cons]
      push_cast
      linarith
    have hf2 : f.length = 2 := hf f (List.mem_cons_self f fs)
    have hle' : ((n + 1 + fs.length : ℕ) : ℚ) ≤ e := by
      refine le_trans (le_of_eq ?_) hle
      push_cast
      simp only [List.length_cons]
      push_cast
      ring
    rw [List.cons_append]
    show streamPhase c e (f :: (fs ++ rest)) n = _
    rw [streamPhase, hc n, if_neg (by simp), if_pos hlt, if_pos hf2]
    rw [ih rest (n + 1) (fun g hg => hf g (List.mem_cons_of_mem f hg)) hle']
    have : n + 1 + fs.length = n + (f :: fs).length := by
      simp only [List.length_cons]
      omega
    rw [this]
    simp

/-! ## Claim theorems -/

/-- Claim C1: for every 16-bit wire value `raw`, the streaming-phase
decode returns `raw & 0x0FFF` — equivalently `raw mod 4096` — the result
lies in `[0, 4095]`, and the raw frame `0xF1A3` decodes to
`0x01A3 = 419`. -/
theorem C1_decode_mask :
    (∀ raw : ℕ, raw < 65536 →
      decode raw = raw &&& 0x0FFF ∧ decode raw = raw % 4096 ∧ decode raw ≤ 4095) ∧
    decode 0xF1A3 = 0x01A3 ∧ decode 0xF1A3 = 419 := by
  refine ⟨fun raw _ => ⟨rfl, ?_, ?_⟩, by decide, by decide⟩
  · have h := Nat.and_pow_two_sub_one_eq_mod raw 12
    norm_num at h
    exact h
  · have h := Nat.and_pow_two_sub_one_eq_mod raw 12
    norm_num at h
    unfold decode
    omega

/-- Witness for C1 at the concrete wire value `0xF1A3`. -/
theorem C1_decode_mask_witness :
    decode 0xF1A3 = 0xF1A3 &&& 0x0FFF ∧ decode 0xF1A3 = 0xF1A3 % 4096 ∧
      decode 0xF1A3 ≤ 4095 :=
  C1_decode_mask.1 0xF1A3 (by decide)

/-- Claim C3 (code defect): the ready-token check on line 27 is
`if "" not in initial_message`, and the empty string occurs in every
string, so the check can never fail: even the handshake line
`"BOOT FAILURE"` — or an empty line from a timed-out read — leads to the
`NMR(...)` command being written to the transport, never to the abort
path the claim describes. -/
theorem C3_handshake_never_aborts :
    (∀ line : String, pyIn "" (pyStrip line) = true) ∧
    (serial_worker 5 100
        { openFails := false, handshakeLine := "BOOT FAILURE", statusLines := [],
          dataReads := [] } noCancel).commandSent = some (commandText 5 100) ∧
    (serial_worker 5 100
        { openFails := false, handshakeLine := "", statusLines := [],
          dataReads := [] } noCancel).commandSent = some (commandText 5 100) := by
  exact ⟨fun line => pyIn_nil _, rfl, rfl⟩

/-- Counterexample to C2 as stated: for the two-sample buffer `[0, 1]`
(`N = 2`, even) the produced frame has `1` frequency bin, not
`floor(N/2) + 1 = 2` — `np.fft.fftfreq` labels the Nyquist bin of an
even-length transform with a negative frequency, so the `>= 0` filter
drops it. -/
theorem C2_counterexample :
    (spectralFrame? [0, 1]).map SpectralFrame.freqs = some (specFreqs 2) ∧
    (specFreqs 2).length = 1 ∧ 2 / 2 + 1 = 2 ∧ (1 : ℕ) ≠ 2 := by
  refine ⟨rfl, ?_, rfl, by decide⟩
  rw [specFreqs_eq, List.length_map, List.length_range]

/-- Claim C2 (amended): for `N ≤ 1` no frame is produced; for `N > 1` the
frame has `ceil(N/2) = (N+1)/2` bins — `floor(N/2) + 1` for odd `N` but
only `floor(N/2)` for even `N`, the Nyquist bin being filtered out — its
frequencies are non-negative, strictly ascending and start at `0`, and
each magnitude is the absolute value of the DFT coefficient at the
corresponding kept index. -/
theorem C2_spectral_engine (x : List ℕ) :
    (x.length ≤ 1 → spectralFrame? x = none) ∧
    (1 < x.length →
      spectralFrame? x = some ⟨specFreqs x.length, specMags x⟩ ∧
      (specFreqs x.length).length = (x.length + 1) / 2 ∧
      (specFreqs x.length).head? = some 0 ∧
      (∀ q ∈ specFreqs x.length, 0 ≤ q) ∧
      List.Chain' (fun a b : ℚ => a < b) (specFreqs x.length) ∧
      specMags x = (posFreqIdx x.length).map (fun k => Complex.abs (dft x k))) := by
  constructor
  · intro h
    unfold spectralFrame?
    rw [if_neg (by omega)]
  · intro h
    have hN : 0 < x.length := by omega
    have hm : 0 < (x.length + 1) / 2 := by omega
    obtain ⟨m, hm'⟩ : ∃ m, (x.length + 1) / 2 = m + 1 :=
      ⟨(x.length + 1) / 2 - 1, (Nat.succ_pred_eq_of_pos hm).symm⟩
    have hNq : (0 : ℚ) < (x.length : ℚ) := by exact_mod_cast hN
    refine ⟨?_, ?_, ?_, ?_, ?_, ?_⟩
    · unfold spectralFrame?
      rw [if_pos h]
    · rw [specFreqs_eq, List.length_map, List.length_range]
    · rw [specFreqs_eq, hm', List.range_succ_eq_map]
      simp
    · intro q hq
      rw [specFreqs_eq] at hq
      simp only [List.mem_map, List.mem_range] at hq
      obtain ⟨k, _, rfl⟩ := hq
      positivity
    · rw [specFreqs_eq, List.chain'_map, hm', List.chain'_range_succ]
      intro i _
      rw [div_lt_div_iff_of_pos_right hNq]
      have hi : ((i : ℚ)) < ((i + 1 : ℕ) : ℚ) := by exact_mod_cast Nat.lt_succ_self i
      exact mul_lt_mul_of_pos_right hi (by norm_num [SAMPLE_RATE])
    · unfold specMags
      apply List.map_congr_left
      intro k hk
      rw [posFreqIdx_eq_range] at hk
      simp only [List.mem_range] at hk
      have hkN : k < x.length := by omega
      unfold fft_magnitude
      simp [List.getD_eq_getElem?_getD, List.getElem?_map, List.getElem?_range, hkN]

/-- Claim C4: the streaming phase pushes each decoded full 2-byte
little-endian frame and terminates exactly on budget exhaustion
(`samples_to_read 100 = 1000` for `read_ms = 100`), on a short read, or
on cancellation; feeding exactly 1000 well-formed frames followed by a
short read through the whole worker ends the run with exactly the 1000
decoded samples queued. -/
theorem C4_streaming (frames : List (List ℕ))
    (hf : ∀ f ∈ frames, f.length = 2) (hlen : frames.length = 1000) :
    samples_to_read 100 = 1000 ∧
    (serial_worker 5 100
        { openFails := false, handshakeLine := "Pico ready",
          statusLines := ["Starting data read"], dataReads := frames ++ [[0]] }
        noCancel).queued = frames.map decodeFrame ∧
    (frames.map decodeFrame).length = 1000 ∧
    (∀ (c : ℕ → Bool) (e : ℚ) (r : List ℕ) rs n, c n = true →
      streamPhase c e (r :: rs) n = []) ∧
    (∀ (c : ℕ → Bool) (e : ℚ) (r : List ℕ) rs n, c n = false → r.length ≠ 2 →
      streamPhase c e (r :: rs) n = []) ∧
    (∀ (c : ℕ → Bool) (e : ℚ) (r : List ℕ) rs n, c n = false → ¬ ((n : ℚ) < e) →
      streamPhase c e (r :: rs) n = []) ∧
    (∀ (c : ℕ → Bool) (e : ℚ) (r : List ℕ) rs n, c n = false → (n : ℚ) < e →
      r.length = 2 →
      streamPhase c e (r :: rs) n = decodeFrame r :: streamPhase c e rs (n + 1)) := by
  have he : samples_to_read 100 = 1000 := by
    norm_num [samples_to_read, SAMPLE_RATE]
  refine ⟨he, ?_, ?_, ?_, ?_, ?_, ?_⟩
  · have hw : (serial_worker 5 100
        { openFails := false, handshakeLine := "Pico ready",
          statusLines := ["Starting data read"], dataReads := frames ++ [[0]] }
        noCancel).queued =
        streamPhase noCancel.streamCancel (samples_to_read 100) (frames ++ [[0]]) 0 := rfl
    rw [hw, he,
      streamPhase_full_block 1000 noCancel.streamCancel (fun i => rfl) frames [[0]] 0 hf
        (by rw [hlen]; norm_num)]
    have htail : streamPhase noCancel.streamCancel 1000 [[0]] (0 + frames.length) = [] := by
      rw [hlen]
      simp [streamPhase, noCancel]
    rw [htail]
    simp
  · simp [hlen]
  · intro c e r rs n hc
    simp [streamPhase, hc]
  · intro c e r rs n hc hr
    simp [streamPhase, hc, hr]
  · intro c e r rs n hc hn
    simp [streamPhase, hc, hn]
  · intro c e r rs n hc hn h2
    simp [streamPhase, hc, hn, h2]

/-- Witness for C4: 1000 copies of the raw frame `0xF1A3`
(bytes `163, 241`) followed by a 1-byte short read yield exactly 1000
queued samples, all `419`. -/
theorem C4_streaming_witness :
    (serial_worker 5 100
        { openFails := false, handshakeLine := "Pico ready",
          statusLines := ["Starting data read"],
          dataReads := List.replicate 1000 [163, 241] ++ [[0]] } noCancel).queued =
      List.replicate 1000 419 := by
  have h := (C4_streaming (List.replicate 1000 [163, 241])
    (by intro f hf; rw [List.eq_of_mem_replicate hf]; rfl)
    (by rw [List.length_replicate])).2.1
  rw [h, List.map_replicate, show decodeFrame [163, 241] = 419 from by decide]

/-- Witness for C2 at the concrete buffers `[5]` (no frame) and
`[0, 1, 2]` (`N = 3`: a frame with `2` bins). -/
theorem C2_spectral_engine_witness :
    spectralFrame? [5] = none ∧
    spectralFrame? [0, 1, 2] = some ⟨specFreqs 3, specMags [0, 1, 2]⟩ ∧
    (specFreqs 3).length = 2 :=
  ⟨(C2_spectral_engine [5]).1 (by decide),
   ((C2_spectral_engine [0, 1, 2]).2 (by decide)).1,
   ((C2_spectral_engine [0, 1, 2]).2 (by decide)).2.1⟩

/-- Counterexample to C5 as stated: three consecutive timed-out reads
(`readline()` returning the empty string) with no cancellation leave the
status loop still running — the phase neither terminates nor fails with
any Timeout error, because an empty stripped line is simply skipped. -/
theorem C5_counterexample :
    statusPhase (fun _ => false) ["", "", ""] 0 = ([], StatusEnd.exhausted) ∧
    StatusEnd.exhausted ≠ StatusEnd.started ∧
    StatusEnd.exhausted ≠ StatusEnd.cancelled :=
  ⟨rfl, by decide, by decide⟩

/-- Claim C5 (amended): the status phase surfaces each non-empty stripped
line and terminates exactly when a line containing the start-of-data
marker appears or cancellation is observed; a timed-out (empty) read is
skipped and the loop continues, so arbitrarily many consecutive empty
reads leave the phase still looping — there is no timeout failure. -/
theorem C5_status_phase :
    (∀ (cancel : ℕ → Bool) (lines : List String) i, cancel i = true →
      statusPhase cancel lines i = ([], StatusEnd.cancelled)) ∧
    (∀ (cancel : ℕ → Bool) l ls i, cancel i = false → pyStrip l = "" →
      statusPhase cancel (l :: ls) i = statusPhase cancel ls (i + 1)) ∧
    (∀ (cancel : ℕ → Bool) l ls i, cancel i = false → pyStrip l ≠ "" →
      pyIn "Starting data read" (pyStrip l) = true →
      statusPhase cancel (l :: ls) i = ([pyStrip l], StatusEnd.started)) ∧
    (∀ (cancel : ℕ → Bool) l ls i, cancel i = false → pyStrip l ≠ "" →
      pyIn "Starting data read" (pyStrip l) = false →
      statusPhase cancel (l :: ls) i =
        (pyStrip l :: (statusPhase cancel ls (i + 1)).1,
         (statusPhase cancel ls (i + 1)).2)) ∧
    (∀ k i, statusPhase (fun _ => false) (List.replicate k "") i =
      ([], StatusEnd.exhausted)) := by
  refine ⟨?_, ?_, ?_, ?_, ?_⟩
  · intro cancel lines i h
    cases lines <;> simp [statusPhase, h]
  · intro cancel l ls i hc hs
    simp [statusPhase, hc, hs]
  · intro cancel l ls i hc hs hm
    simp [statusPhase, hc, hs, hm]
  · intro cancel l ls i hc hs hm
    simp [statusPhase, hc, hs, hm]
  · intro k
    induction k with
    | zero => intro i; simp [statusPhase]
    | succ n ih =>
      intro i
      rw [List.replicate_succ]
      rw [show statusPhase (fun _ => false) ("" :: List.replicate n "") i =
            statusPhase (fun _ => false) (List.replicate n "") (i + 1) from by
          simp [statusPhase, pyStrip, stripChars]]
      exact ih (i + 1)

/-- Witness for C5 at concrete inputs: a timed-out read is skipped, a
set stop event ends the phase, and a marker line starts streaming. -/
theorem C5_status_phase_witness :
    statusPhase (fun _ => false) ["", "ok"] 0 = statusPhase (fun _ => false) ["ok"] 1 ∧
    statusPhase (fun _ => true) ["ok"] 0 = ([], StatusEnd.cancelled) ∧
    statusPhase (fun _ => false) ["Starting data read"] 0 =
      (["Starting data read"], StatusEnd.started) :=
  ⟨C5_status_phase.2.1 (fun _ => false) "" ["ok"] 0 rfl rfl,
   C5_status_phase.1 (fun _ => true) ["ok"] 0 rfl,
   C5_status_phase.2.2.1 (fun _ => false) "Starting data read" [] 0 rfl (by decide)
     (by decide)⟩

/-- Claim C6: draining an empty queue is a no-op — the accumulator, both
time-domain series and both spectral series are unchanged and neither
axis is rescaled (the display is not cleared). -/
theorem C6_noop_refresh (s : PlotState) :
    update_plot [] s = ⟨s, false, false⟩ ∧
    (update_plot [] s).state.allSamples = s.allSamples ∧
    (update_plot [] s).state.fftX = s.fftX ∧
    (update_plot [] s).state.fftY = s.fftY :=
  ⟨rfl, rfl, rfl, rfl⟩

/-- Claim C7: the worker's stop flag equals its having returned — on
every path on which the worker function returns within the supplied
trace (transport error, cancellation during the status phase, or normal
completion of streaming) the `finally:` block has set the shared stop
event. -/
theorem C7_stop_flag_on_exit :
    (∀ pulse_ms read_ms t c, (serial_worker pulse_ms read_ms t c).stopSet =
      (serial_worker pulse_ms read_ms t c).exited) ∧
    (∀ pulse_ms read_ms t c, t.openFails = true →
      (serial_worker pulse_ms read_ms t c).exited = true ∧
      (serial_worker pulse_ms read_ms t c).stopSet = true) ∧
    (∀ pulse_ms read_ms t c,
      (statusPhase c.statusCancel t.statusLines 0).2 = StatusEnd.cancelled →
      t.openFails = false →
      (serial_worker pulse_ms read_ms t c).exited = true ∧
      (serial_worker pulse_ms read_ms t c).stopSet = true) ∧
    (∀ pulse_ms read_ms t c,
      (statusPhase c.statusCancel t.statusLines 0).2 = StatusEnd.started →
      t.openFails = false →
      (serial_worker pulse_ms read_ms t c).exited = true ∧
      (serial_worker pulse_ms read_ms t c).stopSet = true) := by
  refine ⟨?_, ?_, ?_, ?_⟩
  · intro pulse_ms read_ms t c
    unfold serial_worker
    by_cases ho : t.openFails
    · simp [ho]
    · simp only [Bool.not_eq_true] at ho
      simp only [ho, Bool.false_eq_true, if_false, pyIn_nil]
      cases h : (statusPhase c.statusCancel t.statusLines 0).2 <;> simp [h]
  · intro pulse_ms read_ms t c ho
    unfold serial_worker
    simp [ho]
  · intro pulse_ms read_ms t c hs ho
    unfold serial_worker
    simp only [ho, Bool.false_eq_true, if_false, pyIn_nil]
    simp [hs]
  · intro pulse_ms read_ms t c hs ho
    unfold serial_worker
    simp only [ho, Bool.false_eq_true, if_false, pyIn_nil]
    simp [hs]

/-- Witness for C7 on the three exit paths at concrete traces. -/
theorem C7_stop_flag_on_exit_witness :
    (serial_worker 5 100
        { openFails := true, handshakeLine := "", statusLines := [], dataReads := [] }
        noCancel).stopSet = true ∧
    (serial_worker 5 100
        { openFails := false, handshakeLine := "ready",
          statusLines := ["Starting data read"], dataReads := [] } noCancel).stopSet =
      true ∧
    (serial_worker 5 100
        { openFails := false, handshakeLine := "ready", statusLines := [],
          dataReads := [] }
        ⟨fun _ => true, fun _ => false⟩).stopSet = true :=
  ⟨(C7_stop_flag_on_exit.2.1 5 100
      { openFails := true, handshakeLine := "", statusLines := [], dataReads := [] }
      noCancel rfl).2,
   (C7_stop_flag_on_exit.2.2.2 5 100
      { openFails := false, handshakeLine := "ready",
        statusLines := ["Starting data read"], dataReads := [] }
      noCancel (by decide) rfl).2,
   (C7_stop_flag_on_exit.2.2.1 5 100
      { openFails := false, handshakeLine := "ready", statusLines := [],
        dataReads := [] }
      ⟨fun _ => true, fun _ => false⟩ (by decide) rfl).2⟩

/-- Counterexample to C8 as stated: a push that is never followed by a
drain is still sitting in the queue, so the concatenation of the drain
outputs (empty) differs from the push sequence. -/
theorem C8_counterexample :
    (runOps [QOp.push 419] []).2.flatten = [] ∧
    pushedOf [QOp.push 419] = [419] ∧
    ([] : List ℕ) ≠ [419] :=
  ⟨rfl, rfl, by decide⟩

/-- Claim C8 (amended): for every interleaving of pushes and drains, the
concatenation of all drain outputs followed by the residual queue
contents equals the push sequence in order — no loss, reordering or
duplication; when the interleaving ends with a drain the concatenation
equals the push sequence exactly. -/
theorem C8_queue_fifo :
    (∀ (ops : List QOp) (q : List ℕ),
      (runOps ops q).2.flatten ++ (runOps ops q).1 = q ++ pushedOf ops) ∧
    (∀ ops : List QOp,
      (runOps (ops ++ [QOp.drain]) []).2.flatten = pushedOf ops) := by
  have main : ∀ (ops : List QOp) (q : List ℕ),
      (runOps ops q).2.flatten ++ (runOps ops q).1 = q ++ pushedOf ops := by
    intro ops
    induction ops with
    | nil => intro q; simp [runOps, pushedOf]
    | cons op ops ih =>
      intro q
      cases op with
      | push v =>
        rw [show runOps (QOp.push v :: ops) q = runOps ops (q ++ [v]) from rfl]
        rw [ih (q ++ [v])]
        simp [pushedOf]
      | drain =>
        rw [show runOps (QOp.drain :: ops) q =
              ((runOps ops []).1, q :: (runOps ops []).2) from rfl]
        simp only [List.flatten_cons, List.append_assoc]
        rw [ih []]
        simp [pushedOf]
  have final_nil : ∀ (ops : List QOp) (q : List ℕ),
      (runOps (ops ++ [QOp.drain]) q).1 = [] := by
    intro ops
    induction ops with
    | nil => intro q; rfl
    | cons op ops ih =>
      intro q
      cases op with
      | push v => exact ih (q ++ [v])
      | drain =>
        rw [show runOps ((QOp.drain :: ops) ++ [QOp.drain]) q =
              ((runOps (ops ++ [QOp.drain]) []).1,
               q :: (runOps (ops ++ [QOp.drain]) []).2) from rfl]
        exact ih []
  refine ⟨main, ?_⟩
  intro ops
  have h := main (ops ++ [QOp.drain]) []
  rw [final_nil ops []] at h
  simp only [List.append_nil, List.nil_append] at h
  rw [h]
  simp [pushedOf, List.filterMap_append]

/-- Counterexample to C9 as stated: `"-5"` parses as the integer `-5`, no
positivity check exists, and the run proceeds to open the transport; a
non-integer argument such as `"abc"` raises an uncaught `ValueError`
(non-zero exit but no usage message). -/
theorem C9_counterexample :
    mainArgs ["plot_nmr.py", "-5", "100"] = ArgOutcome.run (-5) 100 ∧
    transportOpened (mainArgs ["plot_nmr.py", "-5", "100"]) = true ∧
    ¬ (0 < (-5 : ℤ)) ∧
    mainArgs ["plot_nmr.py", "abc", "100"] = ArgOutcome.valueError := by
  refine ⟨by decide, by decide, by decide, by decide⟩

/-- Claim C9 (amended): `main` prints the usage message and exits
non-zero exactly when the argument count is wrong; with exactly two
positional arguments the transport is opened exactly when both parse as
integers — positive or not — and a non-integer argument aborts with an
uncaught `ValueError` (non-zero exit without the usage message) before
any transport is opened. -/
theorem C9_cli_args :
    (∀ argv : List String, argv.length ≠ 3 → mainArgs argv = ArgOutcome.usageExit) ∧
    (∀ argv : List String, argv.length = 3 →
      (transportOpened (mainArgs argv) = true ↔
        (pyInt (argv.getD 1 "")).isSome = true ∧ (pyInt (argv.getD 2 "")).isSome = true)) ∧
    (∀ argv : List String, argv.length = 3 →
      (pyInt (argv.getD 1 "")).isSome = false ∨ (pyInt (argv.getD 2 "")).isSome = false →
      mainArgs argv = ArgOutcome.valueError) := by
  refine ⟨?_, ?_, ?_⟩
  · intro argv h
    simp [mainArgs, h]
  · intro argv h
    unfold mainArgs
    rw [if_neg (by omega)]
    cases h1 : pyInt (argv.getD 1 "") <;> cases h2 : pyInt (argv.getD 2 "") <;>
      simp [transportOpened]
  · intro argv h hbad
    unfold mainArgs
    rw [if_neg (by omega)]
    cases h1 : pyInt (argv.getD 1 "") <;> cases h2 : pyInt (argv.getD 2 "") <;>
      simp_all

/-- Witness for C9 at concrete argument vectors. -/
theorem C9_cli_args_witness :
    mainArgs ["plot_nmr.py"] = ArgOutcome.usageExit ∧
    (transportOpened (mainArgs ["plot_nmr.py", "5", "100"]) = true ↔
      (pyInt "5").isSome = true ∧ (pyInt "100").isSome = true) ∧
    mainArgs ["plot_nmr.py", "zzz", "100"] = ArgOutcome.valueError :=
  ⟨C9_cli_args.1 ["plot_nmr.py"] (by decide),
   C9_cli_args.2.1 ["plot_nmr.py", "5", "100"] (by decide),
   C9_cli_args.2.2 ["plot_nmr.py", "zzz", "100"] (by decide) (Or.inl (by decide))⟩

/-- Claim C10: a refresh whose non-empty drained batch leaves the
accumulator at length exactly 1 appends the sample and updates the
time-domain series, leaves both spectral series at their previous values
(no explicit empty frame is pushed), and rescales only the time axis. -/
theorem C10_single_sample_refresh (s : PlotState) (batch : List ℕ)
    (h1 : batch ≠ []) (h2 : (s.allSamples ++ batch).length = 1) :
    (update_plot batch s).state.allSamples = s.allSamples ++ batch ∧
    (update_plot batch s).state.timeY = s.allSamples ++ batch ∧
    (update_plot batch s).state.timeX = List.range (s.allSamples ++ batch).length ∧
    (update_plot batch s).state.fftX = s.fftX ∧
    (update_plot batch s).state.fftY = s.fftY ∧
    (update_plot batch s).timeRescaled = true ∧
    (update_plot batch s).fftRescaled = false := by
  have hne : batch.isEmpty = false := by
    cases batch
    · exact absurd rfl h1
    · rfl
  unfold update_plot
  simp only [hne, Bool.false_eq_true, if_false]
  rw [if_neg (by omega : ¬ 1 < (s.allSamples ++ batch).length)]
  simp

/-- Witness for C10: the first refresh of a run whose batch is the single
sample `419`. -/
theorem C10_single_sample_refresh_witness :
    (update_plot [419] ⟨[], [], [], [], []⟩).state.allSamples = [419] ∧
    (update_plot [419] ⟨[], [], [], [], []⟩).state.fftX = [] ∧
    (update_plot [419] ⟨[], [], [], [], []⟩).state.fftY = [] ∧
    (update_plot [419] ⟨[], [], [], [], []⟩).timeRescaled = true ∧
    (update_plot [419] ⟨[], [], [], [], []⟩).fftRescaled = false := by
  have h := C10_single_sample_refresh ⟨[], [], [], [], []⟩ [419] (by decide) (by decide)
  exact ⟨h.1, h.2.2.2.1, h.2.2.2.2.1, h.2.2.2.2.2.1, h.2.2.2.2.2.2⟩

end NMR
